import Mathlib

/-!
Verification of the receive-side batching pipeline of
`applications/adv_networking_bench/cpp/doca_bench_op_rx.h`
(`holoscan::ops::AdvNetworkingBenchDocaRxOp`).

The operator aggregates packet payload pointers delivered in bursts into
fixed-size batches, launches an asynchronous reorder kernel per full batch on
one of `num_concurrent` (= 4) round-robin slots, and tracks in-flight batches
in a FIFO (`batch_q_`) that is reclaimed by non-blocking completion polls
(`cudaEventQuery`).

Modelling choices:
* Machine integers (`int64_t`, `uint32_t`, `uint16_t`) are modelled as `Nat`.
  All counters in the operator only ever increase by small amounts; no claim
  depends on wrap-around, so the `% 2^w` reduction is omitted.
* CUDA calls are external collaborators.  Whether a completion poll
  (`cudaEventQuery`) reports success is decided by an environment oracle
  `dones : Nat -> BatchAggregationParams -> Bool`, indexed by the number of
  `free_batch_queue` invocations performed so far, so that the environment may
  change between successive polls.  `cudaGetLastError` is modelled as
  reporting no error (a device fault terminates the process and is outside
  the claims below).
* The preprocessor symbol `DEBUG_CUDA_TIMES` is not defined when this header
  is compiled, so every block under `#if DEBUG_CUDA_TIMES == 1` (including the
  only `cudaEventRecord` calls of `compute`) is excluded from the translation,
  exactly as the C preprocessor excludes it.
* Device-API calls and host writes into the pinned pointer tables are
  recorded in an observation trace (`DevOp`) so that ordering properties can
  be stated.  Two ghost monitor flags (`wroteInFlight`, `launchedInFlight`)
  observe, at the moment of each table write / kernel launch, whether the
  target slot's event handle still occurs in `batch_q_`; they are pure
  observations and never influence control flow.
-/

namespace AdvRx

/-- Model of one `AdvNetBurstParams` burst as seen through the accessors the
operator uses: `adv_net_get_q_id`, `adv_net_get_num_pkts`,
`adv_net_get_pkt_ptr` (one raw packet pointer per index, modelled as `Nat`)
and `adv_net_get_burst_tot_byte`. -/
structure AdvNetBurstParams where
  q_id : Nat
  pkt_ptrs : List Nat
  tot_byte : Nat
deriving Repr, DecidableEq

/-- `num_concurrent = 4`: number of concurrent batches processing. -/
def num_concurrent : Nat := 4

/-- Model of the `BatchAggregationParams` struct: burst references retained
for this batch (a `std::array` of at most `MAX_ANO_BURSTS` shared pointers,
modelled by the list of retained bursts), their count `num_bursts`, and the
completion event `evt`.  Event handles are per-slot (`events_[n]`), so an
event is identified by its slot index. -/
structure BatchAggregationParams where
  bursts : List AdvNetBurstParams
  num_bursts : Nat
  evt : Nat
deriving Repr, DecidableEq

/-- The configuration parameters the compute path reads: `batch_size_` and
`header_size_`. -/
structure Cfg where
  batch_size : Nat
  header_size : Nat
deriving Repr, DecidableEq

/-- Observation trace entries: the device-API calls issued by `compute` and
the host-side writes into the pinned pointer tables.
* `query evt`   — `cudaEventQuery(evt)` (non-blocking poll);
* `record slot` — `cudaEventRecord(events_[slot], streams_[slot])` (never
  emitted by the translated code: the only such calls sit under
  `#if DEBUG_CUDA_TIMES == 1`);
* `launch slot table` — `simple_packet_reorder(full_batch_data_d_[slot],
  h_dev_ptrs_[slot], ..., streams_[slot])`; `table` is the content of the
  pointer table handed to the kernel;
* `write slot idx ptr` — `h_dev_ptrs_[slot][idx] = ptr`. -/
inductive DevOp where
  | query (evt : Nat)
  | record (slot : Nat)
  | launch (slot : Nat) (table : List Nat)
  | write (slot : Nat) (idx : Nat) (ptr : Nat)
deriving Repr, DecidableEq

def DevOp.isLaunch : DevOp → Bool
  | .launch _ _ => true
  | _ => false

def DevOp.isRecord : DevOp → Bool
  | .record _ => true
  | _ => false

def DevOp.isWrite : DevOp → Bool
  | .write _ _ _ => true
  | _ => false

/-- The mutable operator state touched by `compute`:
`cur_batch_`, `cur_batch_idx_`, `batch_q_` (front of the list = front of the
queue), the lifetime counters `ttl_bytes_recv_` / `ttl_pkts_recv_`, the
per-batch counter `aggr_pkts_recv_`, and the pinned pointer tables
`h_dev_ptrs_` (slot → index → stored pointer). -/
structure RxState where
  cur_batch : BatchAggregationParams
  cur_batch_idx : Nat
  batch_q : List BatchAggregationParams
  ttl_bytes_recv : Nat
  ttl_pkts_recv : Nat
  aggr_pkts_recv : Nat
  h_dev_ptrs : Nat → Nat → Nat

/-- State after `initialize()`: `cur_batch_{}` is value-initialized, all
counters are zero, the queue is empty, and the (uninitialized) pinned tables
are modelled as all-zero. -/
def initState : RxState where
  cur_batch := ⟨[], 0, 0⟩
  cur_batch_idx := 0
  batch_q := []
  ttl_bytes_recv := 0
  ttl_pkts_recv := 0
  aggr_pkts_recv := 0
  h_dev_ptrs := fun _ _ => 0

/-- `free_batch_queue()`: pop completed batches from the front of `batch_q_`,
stopping at the first batch whose `cudaEventQuery` does not report success.
Returns the remaining queue together with the trace of issued queries.
`done` is the environment's answer to `cudaEventQuery(batch.evt)` for this
invocation. -/
def free_batch_queue (done : BatchAggregationParams → Bool) :
    List BatchAggregationParams → List BatchAggregationParams × List DevOp
  | [] => ([], [])
  | b :: rest =>
    if done b then
      let r := free_batch_queue done rest
      (r.1, DevOp.query b.evt :: r.2)
    else (b :: rest, [DevOp.query b.evt])

/-- The pointer table handed to the kernel for `slot`: the first
`batch_size` entries of `h_dev_ptrs_[slot]`. -/
def tableSnap (st : RxState) (slot : Nat) (batch_size : Nat) : List Nat :=
  (List.range batch_size).map (st.h_dev_ptrs slot)

/-- Lines 171–172: store the packet's payload pointer
(`adv_net_get_pkt_ptr(burst, pkt_idx) + header_size_`) into the active
slot's table at `aggr_pkts_recv_`, then increment `aggr_pkts_recv_`. -/
def writePkt (cfg : Cfg) (p : Nat) (st : RxState) : RxState :=
  { st with
    h_dev_ptrs := fun s i =>
      if s = st.cur_batch_idx ∧ i = st.aggr_pkts_recv then p + cfg.header_size
      else st.h_dev_ptrs s i,
    aggr_pkts_recv := st.aggr_pkts_recv + 1 }

/-- Result of processing the packet loop of `compute` (lines 127–173). -/
structure StepRes where
  st : RxState
  ops : List DevOp
  saturated : Bool
  unprocessed : List Nat
  polls : Nat
  wroteInFlight : Bool
  launchedInFlight : Bool

/-- The packet loop of `compute` (lines 127–173).  Arguments: remaining raw
packet pointers, the count `n` of `free_batch_queue` invocations so far (the
oracle index), the accumulated observation trace, the two ghost monitors, and
the current state.

Per packet: if `aggr_pkts_recv_ >= batch_size_` — the batch boundary — reset
`aggr_pkts_recv_`, reclaim the queue, and if the queue still holds
`num_concurrent` batches log "Fell behind in processing on GPU!" and return
(`saturated`); otherwise launch the reorder kernel for the current slot,
push `cur_batch_` (with `evt = events_[cur_batch_idx_]`), reset
`cur_batch_.num_bursts`, and advance `cur_batch_idx_` round-robin.  In every
case the packet's payload pointer is then written into the active slot's
table. -/
def processPkts (cfg : Cfg) (dones : Nat → BatchAggregationParams → Bool) :
    List Nat → Nat → List DevOp → Bool → Bool → RxState → StepRes
  | [], n, ops, w, l, st => ⟨st, ops, false, [], n, w, l⟩
  | p :: rest, n, ops, w, l, st =>
    if cfg.batch_size ≤ st.aggr_pkts_recv then
      -- lines 128–137: aggr_pkts_recv_ = 0; free_batch_queue(); saturation check
      let fr := free_batch_queue (dones n) st.batch_q
      let st2 := { st with aggr_pkts_recv := 0, batch_q := fr.1 }
      if st2.batch_q.length = num_concurrent then
        ⟨st2, ops ++ fr.2, true, p :: rest, n + 1, w, l⟩
      else
        -- lines 146–168: kernel launch, push record, advance slot
        let c := st2.cur_batch_idx
        let table := tableSnap st2 c cfg.batch_size
        let rec0 := { st2.cur_batch with evt := c }
        let st3 := { st2 with
          cur_batch := { rec0 with num_bursts := 0 },
          batch_q := st2.batch_q ++ [rec0],
          cur_batch_idx := (c + 1) % num_concurrent }
        let l2 := l || st2.batch_q.any (fun b => b.evt == c)
        let w2 := w || st3.batch_q.any (fun b => b.evt == st3.cur_batch_idx)
        let st4 := writePkt cfg p st3
        processPkts cfg dones rest (n + 1)
          (ops ++ fr.2 ++
            [DevOp.launch c table,
             DevOp.write st3.cur_batch_idx 0 (p + cfg.header_size)])
          w2 l2 st4
    else
      let w2 := w || st.batch_q.any (fun b => b.evt == st.cur_batch_idx)
      let st2 := writePkt cfg p st
      processPkts cfg dones rest n
        (ops ++ [DevOp.write st.cur_batch_idx st.aggr_pkts_recv (p + cfg.header_size)])
        w2 l st2

/-- Result of one `compute` call. -/
structure ComputeRes where
  st : RxState
  ops : List DevOp
  saturated : Bool
  noBurst : Bool
  unprocessed : List Nat
  wroteInFlight : Bool
  launchedInFlight : Bool

/-- One `compute` call (lines 103–176).  `free_batch_queue` runs first with
oracle index 0; a missing burst is logged and skipped; bursts on queue id 0
are ignored; otherwise `ttl_pkts_recv_` is incremented by the burst's packet
count, the packet loop runs, and — only if the loop was not cut short by the
saturation check — `ttl_bytes_recv_` is incremented by the burst's total
byte count. -/
def compute (cfg : Cfg) (dones : Nat → BatchAggregationParams → Bool)
    (burst? : Option AdvNetBurstParams) (st : RxState) : ComputeRes :=
  let fr := free_batch_queue (dones 0) st.batch_q
  let st0 := { st with batch_q := fr.1 }
  match burst? with
  | none => ⟨st0, fr.2, false, true, [], false, false⟩
  | some burst =>
    if burst.q_id = 0 then ⟨st0, fr.2, false, false, [], false, false⟩
    else
      let st1 := { st0 with ttl_pkts_recv := st0.ttl_pkts_recv + burst.pkt_ptrs.length }
      let r := processPkts cfg dones burst.pkt_ptrs 1 fr.2 false false st1
      if r.saturated then
        ⟨r.st, r.ops, true, false, r.unprocessed, r.wroteInFlight, r.launchedInFlight⟩
      else
        ⟨{ r.st with ttl_bytes_recv := r.st.ttl_bytes_recv + burst.tot_byte },
          r.ops, false, false, [], r.wroteInFlight, r.launchedInFlight⟩

/-- States reachable from `initState` by any sequence of `compute` calls,
with an arbitrary environment oracle and an arbitrary (possibly missing)
input burst at each call. -/
inductive Reachable (cfg : Cfg) : RxState → Prop where
  | init : Reachable cfg initState
  | step : ∀ (dones : Nat → BatchAggregationParams → Bool)
      (b : Option AdvNetBurstParams) (st : RxState),
      Reachable cfg st → Reachable cfg (compute cfg dones b st).st

/-- Run `compute` once per burst of a list, feeding each call the oracle
family `dones k` (call index `k`).  Returns the final state, the
concatenated observation trace, and whether any call hit the saturation
check. -/
def runBursts (cfg : Cfg) (dones : Nat → Nat → BatchAggregationParams → Bool) :
    List AdvNetBurstParams → Nat → RxState → RxState × List DevOp × Bool
  | [], _, st => (st, [], false)
  | bu :: rest, k, st =>
    let r := compute cfg (dones k) (some bu) st
    let rr := runBursts cfg dones rest (k + 1) r.st
    (rr.1, r.ops ++ rr.2.1, r.saturated || rr.2.2)

/-- Payload pointers (raw pointer + header offset) of a raw pointer list, in
arrival order. -/
def payloads (cfg : Cfg) (ps : List Nat) : List Nat :=
  ps.map (fun p => p + cfg.header_size)

/-- All raw packet pointers of a burst list, in arrival order. -/
def allPkts : List AdvNetBurstParams → List Nat
  | [] => []
  | bu :: rest => bu.pkt_ptrs ++ allPkts rest

/-- The `j`-th `B`-sized chunk of a list. -/
def chunk (pl : List Nat) (B j : Nat) : List Nat :=
  (pl.drop (j * B)).take B

/-- The pointer tables of the kernel launches of a trace, in launch order. -/
def launchTables (ops : List DevOp) : List (List Nat) :=
  ops.filterMap (fun o =>
    match o with
    | DevOp.launch _ t => some t
    | _ => none)

/-- Environment oracle under which no completion poll ever succeeds. -/
def neverDone : Nat → BatchAggregationParams → Bool := fun _ _ => false

/-- Environment oracle under which every completion poll succeeds. -/
def alwaysDone : Nat → BatchAggregationParams → Bool := fun _ _ => true

end AdvRx

namespace AdvRx

/-! ### Concrete fixtures used by counterexamples and witnesses -/

/-- Configuration with `batch_size = 1`, `header_size = 0`. -/
def cfg1 : Cfg := ⟨1, 0⟩

/-- Configuration with `batch_size = 2`, `header_size = 0`. -/
def cfg2 : Cfg := ⟨2, 0⟩

/-- A data-queue burst of six packets. -/
def burst6 : AdvNetBurstParams := ⟨1, [10, 20, 30, 40, 50, 60], 600⟩

/-- A data-queue burst of five packets. -/
def burst5 : AdvNetBurstParams := ⟨1, [10, 20, 30, 40, 50], 500⟩

/-- A data-queue burst of two packets. -/
def burst2 : AdvNetBurstParams := ⟨1, [10, 20], 200⟩

/-- A data-queue burst of one packet. -/
def burst1 : AdvNetBurstParams := ⟨1, [70], 100⟩

/-! ### Helper lemmas about `free_batch_queue` -/

lemma free_batch_queue_fst (done : BatchAggregationParams → Bool) :
    ∀ q : List BatchAggregationParams,
      (free_batch_queue done q).1 = q.dropWhile done := by
  intro q
  induction q with
  | nil => rfl
  | cons hd tl ih =>
    by_cases h : done hd <;> simp [free_batch_queue, List.dropWhile_cons, h, ih]

lemma free_batch_queue_snd (done : BatchAggregationParams → Bool) :
    ∀ q : List BatchAggregationParams,
      (free_batch_queue done q).2 =
        (q.takeWhile done).map (fun b => DevOp.query b.evt) ++
          ((q.dropWhile done).take 1).map (fun b => DevOp.query b.evt) := by
  intro q
  induction q with
  | nil => rfl
  | cons hd tl ih =>
    by_cases h : done hd <;>
      simp [free_batch_queue, List.dropWhile_cons, List.takeWhile_cons, h, ih]

lemma free_batch_queue_snd_any (done : BatchAggregationParams → Bool)
    (f : DevOp → Bool) (hf : ∀ e, f (DevOp.query e) = false) :
    ∀ q : List BatchAggregationParams,
      ((free_batch_queue done q).2.any f) = false := by
  intro q
  induction q with
  | nil => rfl
  | cons hd tl ih =>
    by_cases h : done hd <;> simp [free_batch_queue, h, ih, hf]

lemma free_batch_queue_length_le (done : BatchAggregationParams → Bool)
    (q : List BatchAggregationParams) :
    (free_batch_queue done q).1.length ≤ q.length := by
  rw [free_batch_queue_fst]
  exact (List.dropWhile_suffix done).sublist.length_le

/-! ### Helper lemmas about `processPkts` -/

lemma processPkts_ttl (cfg : Cfg) (dones : Nat → BatchAggregationParams → Bool) :
    ∀ (ps : List Nat) (n : Nat) (ops : List DevOp) (w l : Bool) (st : RxState),
      (processPkts cfg dones ps n ops w l st).st.ttl_pkts_recv = st.ttl_pkts_recv ∧
      (processPkts cfg dones ps n ops w l st).st.ttl_bytes_recv = st.ttl_bytes_recv := by
  intro ps
  induction ps with
  | nil => intro n ops w l st; exact ⟨rfl, rfl⟩
  | cons p rest ih =>
    intro n ops w l st
    simp only [processPkts]
    split
    · split
      · exact ⟨rfl, rfl⟩
      · exact ih _ _ _ _ _
    · exact ih _ _ _ _ _

lemma processPkts_no_record (cfg : Cfg) (dones : Nat → BatchAggregationParams → Bool) :
    ∀ (ps : List Nat) (n : Nat) (ops : List DevOp) (w l : Bool) (st : RxState),
      ops.any DevOp.isRecord = false →
      (processPkts cfg dones ps n ops w l st).ops.any DevOp.isRecord = false := by
  intro ps
  induction ps with
  | nil => intro n ops w l st h; exact h
  | cons p rest ih =>
    intro n ops w l st h
    simp only [processPkts]
    split
    · split
      · simp [h, free_batch_queue_snd_any _ DevOp.isRecord (fun _ => rfl)]
      · apply ih
        simp [h, free_batch_queue_snd_any _ DevOp.isRecord (fun _ => rfl), DevOp.isRecord]
    · apply ih
      simp [h, DevOp.isRecord]

end AdvRx

namespace AdvRx

/-! ### Unfolding equations for `compute` -/

lemma compute_none_eq (cfg : Cfg) (dones : Nat → BatchAggregationParams → Bool)
    (st : RxState) :
    compute cfg dones none st =
      ⟨{ st with batch_q := (free_batch_queue (dones 0) st.batch_q).1 },
        (free_batch_queue (dones 0) st.batch_q).2, false, true, [], false, false⟩ := by
  simp [compute]

lemma compute_q0_eq (cfg : Cfg) (dones : Nat → BatchAggregationParams → Bool)
    (bu : AdvNetBurstParams) (st : RxState) (hq : bu.q_id = 0) :
    compute cfg dones (some bu) st =
      ⟨{ st with batch_q := (free_batch_queue (dones 0) st.batch_q).1 },
        (free_batch_queue (dones 0) st.batch_q).2, false, false, [], false, false⟩ := by
  simp [compute, hq]

lemma compute_data_eq (cfg : Cfg) (dones : Nat → BatchAggregationParams → Bool)
    (bu : AdvNetBurstParams) (st : RxState) (hq : bu.q_id ≠ 0) :
    compute cfg dones (some bu) st =
      (if (processPkts cfg dones bu.pkt_ptrs 1 (free_batch_queue (dones 0) st.batch_q).2
            false false
            { st with batch_q := (free_batch_queue (dones 0) st.batch_q).1,
                      ttl_pkts_recv := st.ttl_pkts_recv + bu.pkt_ptrs.length }).saturated then
        ⟨(processPkts cfg dones bu.pkt_ptrs 1 (free_batch_queue (dones 0) st.batch_q).2
            false false
            { st with batch_q := (free_batch_queue (dones 0) st.batch_q).1,
                      ttl_pkts_recv := st.ttl_pkts_recv + bu.pkt_ptrs.length }).st,
          (processPkts cfg dones bu.pkt_ptrs 1 (free_batch_queue (dones 0) st.batch_q).2
            false false
            { st with batch_q := (free_batch_queue (dones 0) st.batch_q).1,
                      ttl_pkts_recv := st.ttl_pkts_recv + bu.pkt_ptrs.length }).ops,
          true, false,
          (processPkts cfg dones bu.pkt_ptrs 1 (free_batch_queue (dones 0) st.batch_q).2
            false false
            { st with batch_q := (free_batch_queue (dones 0) st.batch_q).1,
                      ttl_pkts_recv := st.ttl_pkts_recv + bu.pkt_ptrs.length }).unprocessed,
          (processPkts cfg dones bu.pkt_ptrs 1 (free_batch_queue (dones 0) st.batch_q).2
            false false
            { st with batch_q := (free_batch_queue (dones 0) st.batch_q).1,
                      ttl_pkts_recv := st.ttl_pkts_recv + bu.pkt_ptrs.length }).wroteInFlight,
          (processPkts cfg dones bu.pkt_ptrs 1 (free_batch_queue (dones 0) st.batch_q).2
            false false
            { st with batch_q := (free_batch_queue (dones 0) st.batch_q).1,
                      ttl_pkts_recv := st.ttl_pkts_recv + bu.pkt_ptrs.length }).launchedInFlight⟩
      else
        ⟨{ (processPkts cfg dones bu.pkt_ptrs 1 (free_batch_queue (dones 0) st.batch_q).2
              false false
              { st with batch_q := (free_batch_queue (dones 0) st.batch_q).1,
                        ttl_pkts_recv := st.ttl_pkts_recv + bu.pkt_ptrs.length }).st with
            ttl_bytes_recv :=
              (processPkts cfg dones bu.pkt_ptrs 1 (free_batch_queue (dones 0) st.batch_q).2
                false false
                { st with batch_q := (free_batch_queue (dones 0) st.batch_q).1,
                          ttl_pkts_recv := st.ttl_pkts_recv + bu.pkt_ptrs.length
                }).st.ttl_bytes_recv + bu.tot_byte },
          (processPkts cfg dones bu.pkt_ptrs 1 (free_batch_queue (dones 0) st.batch_q).2
            false false
            { st with batch_q := (free_batch_queue (dones 0) st.batch_q).1,
                      ttl_pkts_recv := st.ttl_pkts_recv + bu.pkt_ptrs.length }).ops,
          false, false, [],
          (processPkts cfg dones bu.pkt_ptrs 1 (free_batch_queue (dones 0) st.batch_q).2
            false false
            { st with batch_q := (free_batch_queue (dones 0) st.batch_q).1,
                      ttl_pkts_recv := st.ttl_pkts_recv + bu.pkt_ptrs.length }).wroteInFlight,
          (processPkts cfg dones bu.pkt_ptrs 1 (free_batch_queue (dones 0) st.batch_q).2
            false false
            { st with batch_q := (free_batch_queue (dones 0) st.batch_q).1,
                      ttl_pkts_recv := st.ttl_pkts_recv + bu.pkt_ptrs.length }).launchedInFlight⟩) := by
  simp [compute, hq]

end AdvRx

namespace AdvRx

/-! ### Claim C8 -/

/-- C8: `free_batch_queue` — the Completion Tracker's reclaim — removes
exactly the maximal prefix of the in-flight FIFO whose completion markers are
satisfied (`dropWhile`), its completion polls inspect only the removed prefix
plus the first unsatisfied head (never later entries), and when the head
marker is not satisfied it is a no-op leaving the queue unchanged.  It is a
pure function of the queue and the poll results, with no blocking call. -/
theorem C8_reclaim_spec (done : BatchAggregationParams → Bool)
    (q : List BatchAggregationParams) :
    (free_batch_queue done q).1 = q.dropWhile done
  ∧ (free_batch_queue done q).2 =
      (q.takeWhile done).map (fun b => DevOp.query b.evt) ++
        ((q.dropWhile done).take 1).map (fun b => DevOp.query b.evt)
  ∧ (∀ hd tl, q = hd :: tl → done hd = false → (free_batch_queue done q).1 = q) := by
  refine ⟨free_batch_queue_fst done q, free_batch_queue_snd done q, ?_⟩
  rintro hd tl rfl h
  simp [free_batch_queue, h]

/-- Witness for C8: reclaiming a one-element queue whose head marker is not
satisfied leaves the queue unchanged. -/
theorem C8_reclaim_spec_witness :
    (free_batch_queue (fun _ => false)
        [(⟨[], 0, 0⟩ : BatchAggregationParams)]).1 =
      [(⟨[], 0, 0⟩ : BatchAggregationParams)] :=
  (C8_reclaim_spec (fun _ => false) [⟨[], 0, 0⟩]).2.2 ⟨[], 0, 0⟩ [] rfl rfl

/-! ### Claim C7 -/

/-- C7: a burst whose queue id is 0 is ignored entirely: the lifetime packet
and byte totals are unchanged, the aggregation count is unchanged, no pointer
table is written, and no kernel launch occurs (the trace holds only the
completion polls of the up-front `free_batch_queue`). -/
theorem C7_queue0_ignored (cfg : Cfg) (dones : Nat → BatchAggregationParams → Bool)
    (st : RxState) (bu : AdvNetBurstParams) (hq : bu.q_id = 0) :
    (compute cfg dones (some bu) st).st.ttl_pkts_recv = st.ttl_pkts_recv
  ∧ (compute cfg dones (some bu) st).st.ttl_bytes_recv = st.ttl_bytes_recv
  ∧ (compute cfg dones (some bu) st).st.aggr_pkts_recv = st.aggr_pkts_recv
  ∧ (compute cfg dones (some bu) st).st.h_dev_ptrs = st.h_dev_ptrs
  ∧ (compute cfg dones (some bu) st).ops.any DevOp.isLaunch = false
  ∧ (compute cfg dones (some bu) st).ops.any DevOp.isWrite = false := by
  rw [compute_q0_eq cfg dones bu st hq]
  refine ⟨rfl, rfl, rfl, rfl, ?_, ?_⟩
  · exact free_batch_queue_snd_any (dones 0) DevOp.isLaunch (fun _ => rfl) st.batch_q
  · exact free_batch_queue_snd_any (dones 0) DevOp.isWrite (fun _ => rfl) st.batch_q

/-- Witness for C7: a two-packet burst on queue 0 leaves the lifetime packet
total of the freshly initialized operator at zero. -/
theorem C7_queue0_ignored_witness :
    (compute cfg1 neverDone (some ⟨0, [10, 20], 200⟩) initState).st.ttl_pkts_recv =
      initState.ttl_pkts_recv :=
  (C7_queue0_ignored cfg1 neverDone initState ⟨0, [10, 20], 200⟩ rfl).1

end AdvRx

namespace AdvRx

/-! ### Claim C2 -/

/-- C2 (code bug): the claim says the slot's completion marker is recorded on
the slot's stream immediately after every reorder-kernel launch.  In the code
as compiled (`DEBUG_CUDA_TIMES` undefined) the only `cudaEventRecord` calls
sit inside the excluded `#if DEBUG_CUDA_TIMES == 1` block, so no `compute`
trace ever contains a record operation (first conjunct, over all inputs),
even in a run that launches a batch (second conjunct: a concrete run whose
trace holds a launch and, by the first conjunct, no record).  The pushed
record's event is therefore never tied to the launched kernel, contradicting
the code's own stated intent that `free_batch_queue` checks "If CUDA
processing/copy is complete". -/
theorem C2_no_marker_recorded :
    (∀ (cfg : Cfg) (dones : Nat → BatchAggregationParams → Bool)
        (b : Option AdvNetBurstParams) (st : RxState),
        (compute cfg dones b st).ops.any DevOp.isRecord = false)
  ∧ (compute cfg1 alwaysDone (some burst2) initState).ops.any DevOp.isLaunch = true := by
  constructor
  · intro cfg dones b st
    have h0 := free_batch_queue_snd_any (dones 0) DevOp.isRecord (fun _ => rfl) st.batch_q
    rcases b with _ | bu
    · rw [compute_none_eq]; exact h0
    · by_cases hq : bu.q_id = 0
      · rw [compute_q0_eq cfg dones bu st hq]; exact h0
      · have h1 := processPkts_no_record cfg dones bu.pkt_ptrs 1
          (free_batch_queue (dones 0) st.batch_q).2 false false
          { st with batch_q := (free_batch_queue (dones 0) st.batch_q).1,
                    ttl_pkts_recv := st.ttl_pkts_recv + bu.pkt_ptrs.length } h0
        rw [compute_data_eq cfg dones bu st hq]
        split
        · exact h1
        · exact h1
  · decide

/-! ### Claim C1 counterexample -/

/-- C1 counterexample: with `batch_size = 1` and no batch ever completing,
a six-packet burst drives the operator into the saturation branch ("Fell
behind in processing on GPU!", early return).  The claim says processing
halts and no further packet is ever processed; but the very next `compute`
call processes a new burst normally: the lifetime packet total rises from 6
to 7 and the trace contains a pointer-table write. -/
theorem C1_counterexample :
    (compute cfg1 neverDone (some burst6) initState).saturated = true
  ∧ (compute cfg1 neverDone (some burst1)
      (compute cfg1 neverDone (some burst6) initState).st).st.ttl_pkts_recv = 7
  ∧ (compute cfg1 neverDone (some burst1)
      (compute cfg1 neverDone (some burst6) initState).st).ops.any DevOp.isWrite = true := by
  decide

/-! ### Claim C3 counterexample -/

/-- C3 counterexample: from the initial state with `batch_size = 1` and no
batch completing, one five-packet data burst is enough to write a payload
pointer into slot 0's table while the in-flight record for slot 0 (pushed by
the first launch) is still in the completion tracker: the fourth launch
fills `batch_q_` to `num_concurrent` entries and the round-robin index wraps
to slot 0, whose table is then written without any reclamation check. -/
theorem C3_counterexample :
    (compute cfg1 neverDone (some burst5) initState).wroteInFlight = true := by
  decide

/-! ### Claim C5 counterexample -/

/-- C5 counterexample: one five-packet data burst with `batch_size = 2` and
every completion poll succeeding (no saturation anywhere) launches 2 batches,
not `⌈5/2⌉ = 3` as claimed: the fifth packet only begins the third batch, and
a batch is launched only when the first packet beyond a full table arrives. -/
theorem C5_counterexample :
    (runBursts cfg2 (fun _ => alwaysDone) [burst5] 0 initState).2.2 = false
  ∧ (launchTables (runBursts cfg2 (fun _ => alwaysDone) [burst5] 0 initState).2.1).length = 2
  ∧ (5 + 2 - 1) / 2 = 3
  ∧ (launchTables (runBursts cfg2 (fun _ => alwaysDone) [burst5] 0 initState).2.1).length ≠
      (5 + 2 - 1) / 2 := by
  decide

/-! ### Claim C9 counterexample -/

/-- C9 counterexample: a two-packet burst with `batch_size = 1` causes a
batch launch whose packets all come from that burst, yet the in-flight record
pushed into the completion tracker retains no burst reference at all: its
burst list is empty and its burst count is 0 (the code never assigns
`cur_batch_.bursts` nor increments `cur_batch_.num_bursts`). -/
theorem C9_counterexample :
    (compute cfg1 neverDone (some burst2) initState).ops.any DevOp.isLaunch = true
  ∧ (compute cfg1 neverDone (some burst2) initState).st.batch_q.map
      BatchAggregationParams.num_bursts = [0]
  ∧ (compute cfg1 neverDone (some burst2) initState).st.batch_q.map
      BatchAggregationParams.bursts = [[]] := by
  decide

end AdvRx

namespace AdvRx

/-! ### Saturation helper lemmas -/

lemma processPkts_of_saturated (cfg : Cfg)
    (dones : Nat → BatchAggregationParams → Bool) :
    ∀ (ps : List Nat) (n : Nat) (ops : List DevOp) (w l : Bool) (st : RxState),
      (processPkts cfg dones ps n ops w l st).saturated = true →
      (processPkts cfg dones ps n ops w l st).unprocessed ≠ [] ∧
      (processPkts cfg dones ps n ops w l st).st.aggr_pkts_recv = 0 := by
  intro ps
  induction ps with
  | nil => intro n ops w l st h; exact absurd h (by simp [processPkts])
  | cons p rest ih =>
    intro n ops w l st
    simp only [processPkts]
    split
    · split
      · intro _
        exact ⟨List.cons_ne_nil p rest, rfl⟩
      · exact ih _ _ _ _ _
    · exact ih _ _ _ _ _

/-- Counter facts at a saturated `compute` call: packet total already grew by
the whole burst, byte total did not, the rest of the burst is unprocessed,
and the aggregation count was reset. -/
lemma compute_saturated_spec (cfg : Cfg)
    (dones : Nat → BatchAggregationParams → Bool) (st : RxState)
    (bu : AdvNetBurstParams)
    (hs : (compute cfg dones (some bu) st).saturated = true) :
    (compute cfg dones (some bu) st).st.ttl_pkts_recv =
      st.ttl_pkts_recv + bu.pkt_ptrs.length
  ∧ (compute cfg dones (some bu) st).st.ttl_bytes_recv = st.ttl_bytes_recv
  ∧ (compute cfg dones (some bu) st).unprocessed ≠ []
  ∧ (compute cfg dones (some bu) st).st.aggr_pkts_recv = 0 := by
  by_cases hq : bu.q_id = 0
  · rw [compute_q0_eq cfg dones bu st hq] at hs
    exact absurd hs (by simp)
  · rw [compute_data_eq cfg dones bu st hq] at hs ⊢
    set R := processPkts cfg dones bu.pkt_ptrs 1
      (free_batch_queue (dones 0) st.batch_q).2 false false
      { st with batch_q := (free_batch_queue (dones 0) st.batch_q).1,
                ttl_pkts_recv := st.ttl_pkts_recv + bu.pkt_ptrs.length } with hRdef
    have hT := processPkts_ttl cfg dones bu.pkt_ptrs 1
      (free_batch_queue (dones 0) st.batch_q).2 false false
      { st with batch_q := (free_batch_queue (dones 0) st.batch_q).1,
                ttl_pkts_recv := st.ttl_pkts_recv + bu.pkt_ptrs.length }
    have hU := processPkts_of_saturated cfg dones bu.pkt_ptrs 1
      (free_batch_queue (dones 0) st.batch_q).2 false false
      { st with batch_q := (free_batch_queue (dones 0) st.batch_q).1,
                ttl_pkts_recv := st.ttl_pkts_recv + bu.pkt_ptrs.length }
    rw [← hRdef] at hT hU
    cases hsat : R.saturated with
    | true =>
      simp only [hsat, if_true] at hs ⊢
      exact ⟨hT.1, hT.2, (hU hsat).1, (hU hsat).2⟩
    | false =>
      rw [hsat] at hs
      simp at hs

/-- Every `compute` call on a data burst adds the burst's packet count to
`ttl_pkts_recv_` (line 125), saturated or not. -/
lemma compute_ttl_pkts (cfg : Cfg)
    (dones : Nat → BatchAggregationParams → Bool) (st : RxState)
    (bu : AdvNetBurstParams) (hq : bu.q_id ≠ 0) :
    (compute cfg dones (some bu) st).st.ttl_pkts_recv =
      st.ttl_pkts_recv + bu.pkt_ptrs.length := by
  rw [compute_data_eq cfg dones bu st hq]
  set R := processPkts cfg dones bu.pkt_ptrs 1
    (free_batch_queue (dones 0) st.batch_q).2 false false
    { st with batch_q := (free_batch_queue (dones 0) st.batch_q).1,
              ttl_pkts_recv := st.ttl_pkts_recv + bu.pkt_ptrs.length } with hRdef
  have hT := processPkts_ttl cfg dones bu.pkt_ptrs 1
    (free_batch_queue (dones 0) st.batch_q).2 false false
    { st with batch_q := (free_batch_queue (dones 0) st.batch_q).1,
              ttl_pkts_recv := st.ttl_pkts_recv + bu.pkt_ptrs.length }
  rw [← hRdef] at hT
  cases hsat : R.saturated with
  | true => simp only [hsat, if_true]; exact hT.1
  | false => simp only [hsat, Bool.false_eq_true, if_false]; exact hT.1

/-! ### Claim C10 -/

/-- C10: if processing of a data-queue burst is cut short by the saturation
check, the lifetime packet total has already been incremented by the full
packet count of the burst (line 125 runs before the loop), while the
lifetime byte total is not incremented for that burst at all (line 175 runs
only after every packet of the burst was processed). -/
theorem C10_saturation_counter_skew (cfg : Cfg)
    (dones : Nat → BatchAggregationParams → Bool) (st : RxState)
    (bu : AdvNetBurstParams)
    (hs : (compute cfg dones (some bu) st).saturated = true) :
    (compute cfg dones (some bu) st).st.ttl_pkts_recv =
      st.ttl_pkts_recv + bu.pkt_ptrs.length
  ∧ (compute cfg dones (some bu) st).st.ttl_bytes_recv = st.ttl_bytes_recv :=
  ⟨(compute_saturated_spec cfg dones st bu hs).1,
   (compute_saturated_spec cfg dones st bu hs).2.1⟩

/-- Witness for C10: in the concrete saturating run (batch_size 1, six
packets, no batch ever completing), the packet total went up by 6 and the
byte total stayed at 0. -/
theorem C10_saturation_counter_skew_witness :
    (compute cfg1 neverDone (some burst6) initState).st.ttl_pkts_recv =
      initState.ttl_pkts_recv + burst6.pkt_ptrs.length
  ∧ (compute cfg1 neverDone (some burst6) initState).st.ttl_bytes_recv =
      initState.ttl_bytes_recv :=
  C10_saturation_counter_skew cfg1 neverDone initState burst6 (by decide)

/-! ### Claim C1 (amended) -/

/-- C1 amended: hitting the saturation check is logged ("Fell behind in
processing on GPU!") and aborts only the current `compute` call: the
remaining packets of the current burst (a nonempty tail) are skipped, the
burst's bytes are not added, and the aggregated batch that was about to
launch is discarded (`aggr_pkts_recv_` was already reset to 0).  Processing
does not halt: any later `compute` call on a data burst still counts and
processes its packets (its packet total grows by that burst's packet
count). -/
theorem C1_saturation_skips_current_burst (cfg : Cfg)
    (dones dones2 : Nat → BatchAggregationParams → Bool) (st : RxState)
    (bu bu2 : AdvNetBurstParams)
    (hs : (compute cfg dones (some bu) st).saturated = true)
    (hq2 : bu2.q_id ≠ 0) :
    (compute cfg dones (some bu) st).st.ttl_bytes_recv = st.ttl_bytes_recv
  ∧ (compute cfg dones (some bu) st).unprocessed ≠ []
  ∧ (compute cfg dones (some bu) st).st.aggr_pkts_recv = 0
  ∧ (compute cfg dones2 (some bu2) (compute cfg dones (some bu) st).st).st.ttl_pkts_recv =
      (compute cfg dones (some bu) st).st.ttl_pkts_recv + bu2.pkt_ptrs.length :=
  ⟨(compute_saturated_spec cfg dones st bu hs).2.1,
   (compute_saturated_spec cfg dones st bu hs).2.2.1,
   (compute_saturated_spec cfg dones st bu hs).2.2.2,
   compute_ttl_pkts cfg dones2 (compute cfg dones (some bu) st).st bu2 hq2⟩

/-- Witness for C1: the concrete saturating run (batch_size 1, six packets,
nothing completing) left the byte total unchanged and skipped a nonempty
packet tail; the follow-up one-packet burst was still processed. -/
theorem C1_saturation_skips_current_burst_witness :
    (compute cfg1 neverDone (some burst6) initState).st.ttl_bytes_recv =
      initState.ttl_bytes_recv
  ∧ (compute cfg1 neverDone (some burst6) initState).unprocessed ≠ []
  ∧ (compute cfg1 neverDone (some burst6) initState).st.aggr_pkts_recv = 0
  ∧ (compute cfg1 neverDone (some burst1)
        (compute cfg1 neverDone (some burst6) initState).st).st.ttl_pkts_recv =
      (compute cfg1 neverDone (some burst6) initState).st.ttl_pkts_recv +
        burst1.pkt_ptrs.length :=
  C1_saturation_skips_current_burst cfg1 neverDone neverDone initState burst6 burst1
    (by decide) (by decide)

end AdvRx

namespace AdvRx

/-! ### The round-robin queue invariant -/

/-- Slot indices of the queued in-flight records when the queue holds `k`
records and the next slot to launch is `c`: the last `k` launched slots,
`c - k, ..., c - 1` modulo `num_concurrent`, oldest first. -/
def slotRange (c k : Nat) : List Nat :=
  (List.range k).map (fun j => (c + num_concurrent - k + j) % num_concurrent)

lemma length_slotRange (c k : Nat) : (slotRange c k).length = k := by
  simp [slotRange]

lemma slotRange_zero (c : Nat) : slotRange c 0 = [] := rfl

lemma slotRange_succ_cons (c k : Nat) (hk : k + 1 ≤ num_concurrent) :
    slotRange c (k + 1) =
      ((c + num_concurrent - (k + 1)) % num_concurrent) :: slotRange c k := by
  simp only [slotRange, List.range_succ_eq_map, List.map_cons, List.map_map, Nat.add_zero]
  congr 1
  apply List.map_congr_left
  intro j hj
  rw [List.mem_range] at hj
  simp only [Function.comp_apply, num_concurrent] at hk ⊢
  congr 1
  omega

lemma slotRange_snoc (c k : Nat) (hc : c < num_concurrent)
    (hk : k + 1 ≤ num_concurrent) :
    slotRange c k ++ [c] = slotRange ((c + 1) % num_concurrent) (k + 1) := by
  simp only [slotRange, List.range_succ, List.map_append, List.map_cons, List.map_nil]
  have h1 : ((c + 1) % num_concurrent + num_concurrent - (k + 1) + k) %
      num_concurrent = c := by
    simp only [num_concurrent] at hc hk ⊢
    omega
  have h2 : (List.range k).map
        (fun j => (c + num_concurrent - k + j) % num_concurrent) =
      (List.range k).map
        (fun j => ((c + 1) % num_concurrent + num_concurrent - (k + 1) + j) %
          num_concurrent) := by
    apply List.map_congr_left
    intro j hj
    rw [List.mem_range] at hj
    simp only [num_concurrent] at hc hk ⊢
    omega
  rw [h1, h2]

lemma not_mem_slotRange (c k : Nat) (hc : c < num_concurrent)
    (hk : k + 1 ≤ num_concurrent) :
    c ∉ slotRange c k := by
  simp only [slotRange, List.mem_map, List.mem_range, num_concurrent] at hc hk ⊢
  rintro ⟨j, hj, heq⟩
  omega

/-- The reachable-state invariant: the round-robin index is in range, at most
`num_concurrent` batches are queued, the queued records' events are exactly
the last `batch_q_.length` launched slots in order, and neither `cur_batch_`
nor any queued record carries burst references. -/
def Inv (st : RxState) : Prop :=
  st.cur_batch_idx < num_concurrent ∧
  st.batch_q.length ≤ num_concurrent ∧
  st.batch_q.map (fun b => b.evt) = slotRange st.cur_batch_idx st.batch_q.length ∧
  st.cur_batch.num_bursts = 0 ∧
  st.cur_batch.bursts = [] ∧
  ∀ b ∈ st.batch_q, b.num_bursts = 0 ∧ b.bursts = []

lemma inv_initState : Inv initState := by
  refine ⟨by norm_num [initState, num_concurrent], by simp [initState], ?_, rfl, rfl, ?_⟩
  · simp [initState, slotRange]
  · intro b hb
    simp [initState] at hb

end AdvRx

namespace AdvRx

lemma map_dropWhile_slotRange (done : BatchAggregationParams → Bool) :
    ∀ (q : List BatchAggregationParams) (c : Nat), q.length ≤ num_concurrent →
      q.map (fun b => b.evt) = slotRange c q.length →
      (q.dropWhile done).length ≤ q.length ∧
      (q.dropWhile done).map (fun b => b.evt) =
        slotRange c (q.dropWhile done).length := by
  intro q
  induction q with
  | nil =>
    intro c h1 h2
    exact ⟨Nat.le_refl _, by simp [slotRange]⟩
  | cons hd tl ih =>
    intro c h1 h2
    rw [List.dropWhile_cons]
    by_cases hdone : done hd
    · simp only [hdone, if_true]
      rw [List.length_cons] at h1
      rw [List.length_cons, slotRange_succ_cons c tl.length h1, List.map_cons] at h2
      injection h2 with h2a h2b
      have hrec := ih c (Nat.le_of_succ_le h1) h2b
      exact ⟨Nat.le_trans hrec.1 (Nat.le_succ _), hrec.2⟩
    · simp only [hdone, if_false]
      exact ⟨Nat.le_refl _, h2⟩

/-- `free_batch_queue` preserves the invariant (only a prefix of the queue is
dropped). -/
lemma inv_free_q (done : BatchAggregationParams → Bool) (st : RxState)
    (h : Inv st) :
    Inv { st with batch_q := (free_batch_queue done st.batch_q).1 } := by
  obtain ⟨h1, h2, h3, h4, h5, h6⟩ := h
  rw [free_batch_queue_fst]
  have hD := map_dropWhile_slotRange done st.batch_q st.cur_batch_idx h2 h3
  refine ⟨h1, Nat.le_trans hD.1 h2, hD.2, h4, h5, ?_⟩
  intro b hb
  exact h6 b ((List.dropWhile_suffix done).subset hb)

/-- `writePkt` touches only the pointer tables and the aggregation count, so
the invariant is untouched. -/
lemma inv_writePkt (cfg : Cfg) (p : Nat) (st : RxState) (h : Inv st) :
    Inv (writePkt cfg p st) := h

/-- The launch step: from an invariant state with a non-full reclaimed queue,
the current slot's event is not among the queued records (so the launch
targets a slot with no in-flight batch), and pushing the record plus the
round-robin advance re-establishes the invariant. -/
lemma inv_push (st2 : RxState) (h : Inv st2)
    (hlen : st2.batch_q.length + 1 ≤ num_concurrent) :
    (st2.batch_q.any (fun b => b.evt == st2.cur_batch_idx)) = false ∧
    Inv { st2 with
      cur_batch := { st2.cur_batch with evt := st2.cur_batch_idx, num_bursts := 0 },
      batch_q := st2.batch_q ++ [{ st2.cur_batch with evt := st2.cur_batch_idx }],
      cur_batch_idx := (st2.cur_batch_idx + 1) % num_concurrent } := by
  obtain ⟨h1, h2, h3, h4, h5, h6⟩ := h
  constructor
  · rw [List.any_eq_false]
    intro b hb hbe
    rw [beq_iff_eq] at hbe
    have hmem : b.evt ∈ st2.batch_q.map (fun b => b.evt) :=
      List.mem_map_of_mem _ hb
    rw [h3, hbe] at hmem
    exact not_mem_slotRange _ _ h1 hlen hmem
  · refine ⟨Nat.mod_lt _ (by norm_num [num_concurrent]), ?_, ?_, rfl, h5, ?_⟩
    · simpa using hlen
    · simp only [List.map_append, List.map_cons, List.map_nil, List.length_append,
        List.length_cons, List.length_nil]
      rw [h3]
      simpa using slotRange_snoc st2.cur_batch_idx st2.batch_q.length h1 hlen
    · intro b hb
      rcases List.mem_append.mp hb with hb | hb
      · exact h6 b hb
      · rw [List.mem_singleton] at hb
        subst hb
        exact ⟨h4, h5⟩

end AdvRx

namespace AdvRx

/-- The packet loop preserves the invariant, and from an invariant state the
`launchedInFlight` monitor never rises: every launch targets a slot with no
queued in-flight record. -/
lemma processPkts_inv (cfg : Cfg) (dones : Nat → BatchAggregationParams → Bool) :
    ∀ (ps : List Nat) (n : Nat) (ops : List DevOp) (w l : Bool) (st : RxState),
      Inv st →
      Inv (processPkts cfg dones ps n ops w l st).st ∧
      (processPkts cfg dones ps n ops w l st).launchedInFlight = l := by
  intro ps
  induction ps with
  | nil => intro n ops w l st h; exact ⟨h, rfl⟩
  | cons p rest ih =>
    intro n ops w l st h
    simp only [processPkts]
    split
    · have hf : Inv { st with
                      aggr_pkts_recv := 0,
                      batch_q := (free_batch_queue (dones n) st.batch_q).1 } :=
        inv_free_q (dones n) st h
      split
      · exact ⟨hf, rfl⟩
      · rename_i hlen
        have hle : (free_batch_queue (dones n) st.batch_q).1.length ≤
            st.batch_q.length := free_batch_queue_length_le (dones n) st.batch_q
        have hq4 : st.batch_q.length ≤ num_concurrent := h.2.1
        have hlen2 : (free_batch_queue (dones n) st.batch_q).1.length + 1 ≤
            num_concurrent := by
          simp only [num_concurrent] at hlen hq4 hle ⊢
          omega
        have hp := inv_push
          { st with
            aggr_pkts_recv := 0,
            batch_q := (free_batch_queue (dones n) st.batch_q).1 } hf hlen2
        have hp1 : ((free_batch_queue (dones n) st.batch_q).1.any
            (fun b => b.evt == st.cur_batch_idx)) = false := hp.1
        have hp2 : Inv (writePkt cfg p
            { cur_batch := { bursts := st.cur_batch.bursts, num_bursts := 0,
                             evt := st.cur_batch_idx },
              cur_batch_idx := (st.cur_batch_idx + 1) % num_concurrent,
              batch_q := (free_batch_queue (dones n) st.batch_q).1 ++
                [{ bursts := st.cur_batch.bursts,
                   num_bursts := st.cur_batch.num_bursts,
                   evt := st.cur_batch_idx }],
              ttl_bytes_recv := st.ttl_bytes_recv,
              ttl_pkts_recv := st.ttl_pkts_recv,
              aggr_pkts_recv := 0,
              h_dev_ptrs := st.h_dev_ptrs }) := inv_writePkt cfg p _ hp.2
        rw [hp1, Bool.or_false]
        exact ih _ _ _ _ _ hp2
    · exact ih n _ _ l (writePkt cfg p st) (inv_writePkt cfg p st h)

end AdvRx

namespace AdvRx

/-- One `compute` call preserves the invariant. -/
lemma compute_inv (cfg : Cfg) (dones : Nat → BatchAggregationParams → Bool)
    (b : Option AdvNetBurstParams) (st : RxState) (h : Inv st) :
    Inv (compute cfg dones b st).st := by
  rcases b with _ | bu
  · rw [compute_none_eq]
    exact inv_free_q (dones 0) st h
  · by_cases hq : bu.q_id = 0
    · rw [compute_q0_eq cfg dones bu st hq]
      exact inv_free_q (dones 0) st h
    · rw [compute_data_eq cfg dones bu st hq]
      have h1 : Inv { st with
          batch_q := (free_batch_queue (dones 0) st.batch_q).1,
          ttl_pkts_recv := st.ttl_pkts_recv + bu.pkt_ptrs.length } :=
        inv_free_q (dones 0) st h
      have hP := processPkts_inv cfg dones bu.pkt_ptrs 1
        (free_batch_queue (dones 0) st.batch_q).2 false false
        { st with batch_q := (free_batch_queue (dones 0) st.batch_q).1,
                  ttl_pkts_recv := st.ttl_pkts_recv + bu.pkt_ptrs.length } h1
      split
      · exact hP.1
      · exact hP.1

/-- Every reachable state satisfies the invariant. -/
lemma reachable_inv (cfg : Cfg) (st : RxState) (h : Reachable cfg st) : Inv st := by
  induction h with
  | init => exact inv_initState
  | step dones b st2 _ ih => exact compute_inv cfg dones b st2 ih

end AdvRx

namespace AdvRx

/-! ### Claim C3 (amended) -/

/-- C3 amended: in every reachable state, no reorder-kernel launch targets a
slot whose in-flight record is still in the completion tracker — the
`launchedInFlight` monitor (true as soon as a launch's slot event occurs in
`batch_q_` at launch time) stays false over any `compute` call from any
reachable state.  (The original claim — that no pointer-table WRITE happens
while the slot's record is in flight — is refuted by `C3_counterexample`:
only launches are guarded by the saturation check, not the writes that refill
the next slot's table.) -/
theorem C3_no_launch_on_inflight_slot (cfg : Cfg)
    (dones : Nat → BatchAggregationParams → Bool)
    (b : Option AdvNetBurstParams) (st : RxState) (h : Reachable cfg st) :
    (compute cfg dones b st).launchedInFlight = false := by
  have hInv := reachable_inv cfg st h
  rcases b with _ | bu
  · rw [compute_none_eq]
  · by_cases hq : bu.q_id = 0
    · rw [compute_q0_eq cfg dones bu st hq]
    · rw [compute_data_eq cfg dones bu st hq]
      have h1 : Inv { st with
          batch_q := (free_batch_queue (dones 0) st.batch_q).1,
          ttl_pkts_recv := st.ttl_pkts_recv + bu.pkt_ptrs.length } :=
        inv_free_q (dones 0) st hInv
      have hP := processPkts_inv cfg dones bu.pkt_ptrs 1
        (free_batch_queue (dones 0) st.batch_q).2 false false
        { st with batch_q := (free_batch_queue (dones 0) st.batch_q).1,
                  ttl_pkts_recv := st.ttl_pkts_recv + bu.pkt_ptrs.length } h1
      split
      · exact hP.2
      · exact hP.2

/-- Witness for C3: a `compute` call from the (reachable) initial state,
with batch launches occurring, never launches on a slot with an in-flight
record. -/
theorem C3_no_launch_on_inflight_slot_witness :
    (compute cfg1 neverDone (some burst5) initState).launchedInFlight = false :=
  C3_no_launch_on_inflight_slot cfg1 neverDone (some burst5) initState Reachable.init

end AdvRx

namespace AdvRx

lemma dropWhile_eq_self_of_false {α : Type} (p : α → Bool) (l : List α)
    (hp : ∀ x, p x = false) : l.dropWhile p = l := by
  cases l with
  | nil => rfl
  | cons a t => rw [List.dropWhile_cons, hp a]; simp

/-- If the queue is full and no completion poll ever succeeds, the packet
loop never launches a kernel: the first batch boundary hits the saturation
check and returns. -/
lemma processPkts_no_launch (cfg : Cfg)
    (dones : Nat → BatchAggregationParams → Bool)
    (hd : ∀ i r, dones i r = false) :
    ∀ (ps : List Nat) (n : Nat) (ops : List DevOp) (w l : Bool) (st : RxState),
      st.batch_q.length = num_concurrent →
      ops.any DevOp.isLaunch = false →
      (processPkts cfg dones ps n ops w l st).ops.any DevOp.isLaunch = false := by
  intro ps
  induction ps with
  | nil => intro n ops w l st h1 h2; exact h2
  | cons p rest ih =>
    intro n ops w l st h1 h2
    have hfq : (free_batch_queue (dones n) st.batch_q).1 = st.batch_q := by
      rw [free_batch_queue_fst]
      exact dropWhile_eq_self_of_false _ _ (hd n)
    simp only [processPkts]
    split
    · rw [if_pos (by rw [hfq]; exact h1)]
      simp only [List.any_append, h2,
        free_batch_queue_snd_any (dones n) DevOp.isLaunch (fun _ => rfl) st.batch_q,
        Bool.or_false]
    · refine ih n _ _ l (writePkt cfg p st) h1 ?_
      simp [h2, DevOp.isLaunch]

/-! ### Claim C4 -/

/-- C4: in every reachable state the completion tracker holds at most
`num_concurrent` (= 4) in-flight records; and when 4 records are in flight
and none of them completes, a `compute` call performs no kernel launch at
all — the would-be (N+1)-th launch is suppressed by the saturation check. -/
theorem C4_depth_bound (cfg : Cfg) (st : RxState) (h : Reachable cfg st) :
    st.batch_q.length ≤ num_concurrent ∧
    (∀ (dones : Nat → BatchAggregationParams → Bool) (bu : AdvNetBurstParams),
      st.batch_q.length = num_concurrent →
      (∀ i r, dones i r = false) →
      (compute cfg dones (some bu) st).ops.any DevOp.isLaunch = false) := by
  refine ⟨(reachable_inv cfg st h).2.1, ?_⟩
  intro dones bu hlen hd
  have hfq : (free_batch_queue (dones 0) st.batch_q).1 = st.batch_q := by
    rw [free_batch_queue_fst]
    exact dropWhile_eq_self_of_false _ _ (hd 0)
  have hq0 := free_batch_queue_snd_any (dones 0) DevOp.isLaunch (fun _ => rfl) st.batch_q
  by_cases hq : bu.q_id = 0
  · rw [compute_q0_eq cfg dones bu st hq]
    exact hq0
  · rw [compute_data_eq cfg dones bu st hq]
    have hP := processPkts_no_launch cfg dones hd bu.pkt_ptrs 1
      (free_batch_queue (dones 0) st.batch_q).2 false false
      { st with batch_q := (free_batch_queue (dones 0) st.batch_q).1,
                ttl_pkts_recv := st.ttl_pkts_recv + bu.pkt_ptrs.length }
      (by rw [show ({ st with
            batch_q := (free_batch_queue (dones 0) st.batch_q).1,
            ttl_pkts_recv := st.ttl_pkts_recv + bu.pkt_ptrs.length } : RxState).batch_q =
          (free_batch_queue (dones 0) st.batch_q).1 from rfl, hfq]; exact hlen)
      hq0
    split
    · exact hP
    · exact hP

/-- Witness for C4: the reachable state after the saturating five-packet run
holds four in-flight records (at most 4), and a further data burst with no
completions causes no launch. -/
theorem C4_depth_bound_witness :
    (compute cfg1 neverDone (some burst1)
        (compute cfg1 neverDone (some burst5) initState).st).ops.any
      DevOp.isLaunch = false :=
  (C4_depth_bound cfg1 (compute cfg1 neverDone (some burst5) initState).st
      (Reachable.step neverDone (some burst5) initState Reachable.init)).2
    neverDone burst1 (by decide) (fun _ _ => rfl)

/-! ### Claim C9 (amended) -/

/-- C9 amended: in every reachable state, every in-flight record in the
completion tracker carries no burst references: its burst list is empty and
its burst count is 0.  Records carry only the slot's completion event; the
code never assigns `cur_batch_.bursts` nor increments
`cur_batch_.num_bursts`, so nothing is retained for the bursts whose packets
made up the batch (refuting the original claim, see `C9_counterexample`). -/
theorem C9_records_retain_no_bursts (cfg : Cfg) (st : RxState)
    (h : Reachable cfg st) :
    ∀ b ∈ st.batch_q, b.num_bursts = 0 ∧ b.bursts = [] :=
  (reachable_inv cfg st h).2.2.2.2.2

/-- Witness for C9: the record queued by the concrete two-packet run carries
no burst references. -/
theorem C9_records_retain_no_bursts_witness :
    (⟨[], 0, 0⟩ : BatchAggregationParams).num_bursts = 0 ∧
    (⟨[], 0, 0⟩ : BatchAggregationParams).bursts = [] :=
  C9_records_retain_no_bursts cfg1 (compute cfg1 neverDone (some burst2) initState).st
    (Reachable.step neverDone (some burst2) initState Reachable.init)
    ⟨[], 0, 0⟩ (by decide)

end AdvRx

namespace AdvRx

/-! ### Aggregation bookkeeping for the launch-count theorem -/

lemma getD_append_left (l l2 : List Nat) (k d : Nat) (h : k < l.length) :
    (l ++ l2).getD k d = l.getD k d := by
  unfold List.getD
  rw [List.get?_append h]

lemma getD_append_self (l l2 : List Nat) (x d : Nat) :
    (l ++ x :: l2).getD l.length d = x := by
  unfold List.getD
  rw [List.get?_append_right (Nat.le_refl _)]
  simp

lemma chunk_append (a b : List Nat) (B j : Nat) (h : j * B + B ≤ a.length) :
    chunk (a ++ b) B j = chunk a B j := by
  unfold chunk
  rw [List.drop_append_of_le_length (by omega),
    List.take_append_of_le_length (by simp; omega)]

lemma chunk_eq_map_range (pl : List Nat) (B m : Nat) (h : m + B ≤ pl.length) :
    (pl.drop m).take B = (List.range B).map (fun i => pl.getD (m + i) 0) := by
  apply List.ext_getElem
  · simp
    omega
  · intro i hi hi2
    rw [List.length_take, List.length_drop, lt_min_iff] at hi
    rw [List.getElem_take, List.getElem_drop, List.getElem_map, List.getElem_range]
    unfold List.getD
    rw [List.get?_eq_getElem?, List.getElem?_eq_getElem (by omega)]
    rfl

lemma launchTables_append (a b : List DevOp) :
    launchTables (a ++ b) = launchTables a ++ launchTables b := by
  unfold launchTables
  exact List.filterMap_append a b _

lemma launchTables_free (done : BatchAggregationParams → Bool) :
    ∀ q : List BatchAggregationParams,
      launchTables (free_batch_queue done q).2 = [] := by
  intro q
  induction q with
  | nil => rfl
  | cons hd tl ih =>
    by_cases h : done hd <;> simp [free_batch_queue, h, launchTables] at ih ⊢ <;>
      exact ih

/-- The mid-aggregation invariant tying the operator state after processing
the payload-pointer stream `pl` (in arrival order) to the number `L` of
kernel launches performed so far. -/
def AggInv (cfg : Cfg) (pl : List Nat) (L : Nat) (st : RxState) : Prop :=
  st.aggr_pkts_recv ≤ cfg.batch_size ∧
  pl.length = L * cfg.batch_size + st.aggr_pkts_recv ∧
  (pl.length = 0 → L = 0) ∧
  (pl.length ≠ 0 → 1 ≤ st.aggr_pkts_recv) ∧
  st.cur_batch_idx = L % num_concurrent ∧
  ∀ i, i < st.aggr_pkts_recv →
    st.h_dev_ptrs st.cur_batch_idx i = pl.getD (L * cfg.batch_size + i) 0

lemma aggInv_initState (cfg : Cfg) : AggInv cfg [] 0 initState := by
  refine ⟨Nat.zero_le _, by simp [initState], fun _ => rfl, ?_, rfl, ?_⟩
  · intro h; exact absurd rfl h
  · intro i hi
    exact absurd hi (by simp [initState])

end AdvRx

namespace AdvRx

/-- Storing one more packet into a non-full table extends the processed
payload stream by that packet's payload pointer. -/
lemma aggInv_writePkt (cfg : Cfg) (p : Nat) (st : RxState) (pl : List Nat)
    (L : Nat) (h : AggInv cfg pl L st)
    (hlt : st.aggr_pkts_recv < cfg.batch_size) :
    AggInv cfg (pl ++ [p + cfg.header_size]) L (writePkt cfg p st) := by
  obtain ⟨h1, h2, h3, h4, h5, h6⟩ := h
  refine ⟨hlt, ?_, ?_, ?_, h5, ?_⟩
  · simp only [List.length_append, List.length_singleton, writePkt]
    omega
  · intro hz
    rw [List.length_append, List.length_singleton] at hz
    omega
  · intro _
    exact Nat.succ_le_succ (Nat.zero_le _)
  · intro i hi
    simp only [writePkt] at hi ⊢
    by_cases hieq : i = st.aggr_pkts_recv
    · subst hieq
      rw [if_pos (by simp)]
      rw [show L * cfg.batch_size + st.aggr_pkts_recv = pl.length from h2.symm]
      exact (getD_append_self pl [] (p + cfg.header_size) 0).symm
    · rw [if_neg (fun hc => hieq hc.2)]
      have hi2 : i < st.aggr_pkts_recv := by omega
      rw [h6 i hi2]
      exact (getD_append_left pl [p + cfg.header_size] _ 0 (by omega)).symm

/-- After a launch and round-robin advance, storing the overflowing packet at
index 0 of the fresh slot re-establishes the aggregation invariant with one
more launch. -/
lemma aggInv_after_launch (cfg : Cfg) (hB : 1 ≤ cfg.batch_size) (p : Nat)
    (st st3 : RxState) (pl : List Nat) (L : Nat)
    (h : AggInv cfg pl L st) (hfull : cfg.batch_size ≤ st.aggr_pkts_recv)
    (hidx : st3.cur_batch_idx = (st.cur_batch_idx + 1) % num_concurrent)
    (haggr : st3.aggr_pkts_recv = 0) :
    AggInv cfg (pl ++ [p + cfg.header_size]) (L + 1) (writePkt cfg p st3) := by
  obtain ⟨h1, h2, h3, h4, h5, h6⟩ := h
  have hA : st.aggr_pkts_recv = cfg.batch_size := Nat.le_antisymm h1 hfull
  have hlen : pl.length = L * cfg.batch_size + cfg.batch_size := by omega
  refine ⟨?_, ?_, ?_, ?_, ?_, ?_⟩
  · simp only [writePkt]
    omega
  · simp only [writePkt, List.length_append, List.length_singleton, Nat.succ_mul]
    omega
  · intro hz
    rw [List.length_append, List.length_singleton] at hz
    omega
  · intro _
    simp only [writePkt]
    omega
  · simp only [writePkt]
    rw [hidx, h5]
    simp only [num_concurrent]
    omega
  · intro i hi
    simp only [writePkt] at hi ⊢
    have hi0 : i = 0 := by omega
    subst hi0
    rw [if_pos (by simp [haggr])]
    rw [show (L + 1) * cfg.batch_size + 0 = pl.length by rw [Nat.succ_mul]; omega]
    exact (getD_append_self pl [] (p + cfg.header_size) 0).symm

/-- When the table is full, the snapshot handed to the kernel is exactly the
`L`-th `batch_size`-chunk of the processed payload stream. -/
lemma tableSnap_eq_chunk (cfg : Cfg) (st : RxState) (pl : List Nat) (L : Nat)
    (h : AggInv cfg pl L st) (hfull : cfg.batch_size ≤ st.aggr_pkts_recv) :
    tableSnap st st.cur_batch_idx cfg.batch_size = chunk pl cfg.batch_size L := by
  obtain ⟨h1, h2, h3, h4, h5, h6⟩ := h
  have hA : st.aggr_pkts_recv = cfg.batch_size := Nat.le_antisymm h1 hfull
  have hlen : L * cfg.batch_size + cfg.batch_size ≤ pl.length := by omega
  show tableSnap st st.cur_batch_idx cfg.batch_size =
    (pl.drop (L * cfg.batch_size)).take cfg.batch_size
  rw [chunk_eq_map_range pl cfg.batch_size (L * cfg.batch_size) hlen]
  unfold tableSnap
  apply List.map_congr_left
  intro i hi
  rw [List.mem_range] at hi
  exact h6 i (by omega)

end AdvRx

namespace AdvRx

lemma payloads_cons (cfg : Cfg) (p : Nat) (ps : List Nat) :
    payloads cfg (p :: ps) = (p + cfg.header_size) :: payloads cfg ps := rfl

lemma payloads_append (cfg : Cfg) (a b : List Nat) :
    payloads cfg (a ++ b) = payloads cfg a ++ payloads cfg b := by
  unfold payloads
  exact List.map_append _ a b

lemma append_payloads_cons (cfg : Cfg) (pl : List Nat) (p : Nat) (rest : List Nat) :
    (pl ++ [p + cfg.header_size]) ++ payloads cfg rest =
      pl ++ payloads cfg (p :: rest) := by
  rw [payloads_cons, List.append_assoc, List.singleton_append]

/-- Main aggregation lemma for the packet loop: if no saturation occurs, the
launch count rises from `L` to some `L2` and the tables handed to the
successive kernel launches are exactly the `batch_size`-chunks `L`, `L+1`,
..., `L2-1` of the processed payload stream, in order. -/
lemma processPkts_agg (cfg : Cfg) (hB : 1 ≤ cfg.batch_size)
    (dones : Nat → BatchAggregationParams → Bool) :
    ∀ (ps : List Nat) (n : Nat) (ops : List DevOp) (w l : Bool) (st : RxState)
      (pl : List Nat) (L : Nat),
      AggInv cfg pl L st →
      (processPkts cfg dones ps n ops w l st).saturated = false →
      ∃ L2, L ≤ L2 ∧
        AggInv cfg (pl ++ payloads cfg ps) L2
          (processPkts cfg dones ps n ops w l st).st ∧
        launchTables (processPkts cfg dones ps n ops w l st).ops =
          launchTables ops ++
            (List.range (L2 - L)).map
              (fun j => chunk (pl ++ payloads cfg ps) cfg.batch_size (L + j)) := by
  intro ps
  induction ps with
  | nil =>
    intro n ops w l st pl L hInv _
    refine ⟨L, Nat.le_refl L, ?_, ?_⟩
    · simpa [payloads] using hInv
    · simp [processPkts]
  | cons p rest ih =>
    intro n ops w l st pl L hInv hsat
    simp only [processPkts] at hsat ⊢
    by_cases hbd : cfg.batch_size ≤ st.aggr_pkts_recv
    · rw [if_pos hbd] at hsat ⊢
      by_cases hful : (free_batch_queue (dones n) st.batch_q).1.length = num_concurrent
      · rw [if_pos hful] at hsat
        exact absurd hsat (by simp)
      · rw [if_neg hful] at hsat ⊢
        have hInv4 : AggInv cfg (pl ++ [p + cfg.header_size]) (L + 1)
            (writePkt cfg p
              { cur_batch := { bursts := st.cur_batch.bursts, num_bursts := 0,
                               evt := st.cur_batch_idx },
                cur_batch_idx := (st.cur_batch_idx + 1) % num_concurrent,
                batch_q := (free_batch_queue (dones n) st.batch_q).1 ++
                  [{ bursts := st.cur_batch.bursts,
                     num_bursts := st.cur_batch.num_bursts,
                     evt := st.cur_batch_idx }],
                ttl_bytes_recv := st.ttl_bytes_recv,
                ttl_pkts_recv := st.ttl_pkts_recv,
                aggr_pkts_recv := 0,
                h_dev_ptrs := st.h_dev_ptrs }) :=
          aggInv_after_launch cfg hB p st _ pl L hInv hbd rfl rfl
        obtain ⟨L2, hle, hInvR, htab⟩ := ih _ _ _ _ _ _ _ hInv4 hsat
        rw [append_payloads_cons] at hInvR htab
        refine ⟨L2, by omega, hInvR, ?_⟩
        rw [htab, launchTables_append, launchTables_append,
          launchTables_free (dones n) st.batch_q]
        have htbl : launchTables
            [DevOp.launch st.cur_batch_idx
              (tableSnap
                { cur_batch := st.cur_batch, cur_batch_idx := st.cur_batch_idx,
                  batch_q := (free_batch_queue (dones n) st.batch_q).1,
                  ttl_bytes_recv := st.ttl_bytes_recv,
                  ttl_pkts_recv := st.ttl_pkts_recv, aggr_pkts_recv := 0,
                  h_dev_ptrs := st.h_dev_ptrs }
                st.cur_batch_idx cfg.batch_size),
             DevOp.write ((st.cur_batch_idx + 1) % num_concurrent) 0
               (p + cfg.header_size)] =
            [chunk (pl ++ payloads cfg (p :: rest)) cfg.batch_size L] := by
          have hsnap : tableSnap
              { cur_batch := st.cur_batch, cur_batch_idx := st.cur_batch_idx,
                batch_q := (free_batch_queue (dones n) st.batch_q).1,
                ttl_bytes_recv := st.ttl_bytes_recv,
                ttl_pkts_recv := st.ttl_pkts_recv, aggr_pkts_recv := 0,
                h_dev_ptrs := st.h_dev_ptrs }
              st.cur_batch_idx cfg.batch_size =
              tableSnap st st.cur_batch_idx cfg.batch_size := rfl
          have hbound : L * cfg.batch_size + cfg.batch_size ≤ pl.length := by
            have h2 := hInv.2.1
            have h1 := hInv.1
            omega
          rw [show launchTables
              [DevOp.launch st.cur_batch_idx
                (tableSnap
                  { cur_batch := st.cur_batch, cur_batch_idx := st.cur_batch_idx,
                    batch_q := (free_batch_queue (dones n) st.batch_q).1,
                    ttl_bytes_recv := st.ttl_bytes_recv,
                    ttl_pkts_recv := st.ttl_pkts_recv, aggr_pkts_recv := 0,
                    h_dev_ptrs := st.h_dev_ptrs }
                  st.cur_batch_idx cfg.batch_size),
               DevOp.write ((st.cur_batch_idx + 1) % num_concurrent) 0
                 (p + cfg.header_size)] =
              [tableSnap
                { cur_batch := st.cur_batch, cur_batch_idx := st.cur_batch_idx,
                  batch_q := (free_batch_queue (dones n) st.batch_q).1,
                  ttl_bytes_recv := st.ttl_bytes_recv,
                  ttl_pkts_recv := st.ttl_pkts_recv, aggr_pkts_recv := 0,
                  h_dev_ptrs := st.h_dev_ptrs }
                st.cur_batch_idx cfg.batch_size] from rfl]
          rw [hsnap, tableSnap_eq_chunk cfg st pl L hInv hbd]
          rw [chunk_append pl (payloads cfg (p :: rest)) cfg.batch_size L hbound]
        rw [htbl]
        rw [List.append_nil, List.append_assoc]
        congr 1
        have hrange : L2 - L = (L2 - (L + 1)) + 1 := by omega
        rw [hrange, List.range_succ_eq_map, List.map_cons, List.map_map,
          List.singleton_append, Nat.add_zero]
        congr 1
        apply List.map_congr_left
        intro j _
        simp only [Function.comp_apply]
        congr 1
        omega
    · rw [if_neg hbd] at hsat ⊢
      have hInv2 := aggInv_writePkt cfg p st pl L hInv (by omega)
      obtain ⟨L2, hle, hInvR, htab⟩ := ih _ _ _ _ _ _ _ hInv2 hsat
      rw [append_payloads_cons] at hInvR htab
      refine ⟨L2, hle, hInvR, ?_⟩
      rw [htab, launchTables_append]
      rw [show launchTables
          [DevOp.write st.cur_batch_idx st.aggr_pkts_recv (p + cfg.header_size)] =
          [] from rfl]
      rw [List.append_nil]

end AdvRx

namespace AdvRx

/-- Aggregation lemma for one `compute` call on a data burst. -/
lemma compute_agg (cfg : Cfg) (hB : 1 ≤ cfg.batch_size)
    (dones : Nat → BatchAggregationParams → Bool) (bu : AdvNetBurstParams)
    (st : RxState) (pl : List Nat) (L : Nat)
    (hq : bu.q_id ≠ 0) (hInv : AggInv cfg pl L st)
    (hsat : (compute cfg dones (some bu) st).saturated = false) :
    ∃ L2, L ≤ L2 ∧
      AggInv cfg (pl ++ payloads cfg bu.pkt_ptrs) L2
        (compute cfg dones (some bu) st).st ∧
      launchTables (compute cfg dones (some bu) st).ops =
        (List.range (L2 - L)).map
          (fun j => chunk (pl ++ payloads cfg bu.pkt_ptrs) cfg.batch_size (L + j)) := by
  rw [compute_data_eq cfg dones bu st hq] at hsat ⊢
  have hInv1 : AggInv cfg pl L
      { st with batch_q := (free_batch_queue (dones 0) st.batch_q).1,
                ttl_pkts_recv := st.ttl_pkts_recv + bu.pkt_ptrs.length } := hInv
  have hP := processPkts_agg cfg hB dones bu.pkt_ptrs 1
      (free_batch_queue (dones 0) st.batch_q).2 false false
      { st with batch_q := (free_batch_queue (dones 0) st.batch_q).1,
                ttl_pkts_recv := st.ttl_pkts_recv + bu.pkt_ptrs.length } pl L hInv1
  set R := processPkts cfg dones bu.pkt_ptrs 1
      (free_batch_queue (dones 0) st.batch_q).2 false false
      { st with batch_q := (free_batch_queue (dones 0) st.batch_q).1,
                ttl_pkts_recv := st.ttl_pkts_recv + bu.pkt_ptrs.length } with hRdef
  cases hS : R.saturated with
  | true =>
    rw [hS] at hsat
    simp at hsat
  | false =>
    obtain ⟨L2, hle, hInvR, htab⟩ := hP hS
    refine ⟨L2, hle, ?_, ?_⟩
    · simp only [hS, Bool.false_eq_true, if_false]
      exact hInvR
    · simp only [hS, Bool.false_eq_true, if_false]
      rw [htab, launchTables_free (dones 0) st.batch_q, List.nil_append]

/-- Aggregation lemma for a whole run of bursts. -/
lemma runBursts_agg (cfg : Cfg) (hB : 1 ≤ cfg.batch_size)
    (dones : Nat → Nat → BatchAggregationParams → Bool) :
    ∀ (bus : List AdvNetBurstParams) (k : Nat) (st : RxState)
      (pl : List Nat) (L : Nat),
      (∀ bu ∈ bus, bu.q_id ≠ 0) →
      AggInv cfg pl L st →
      (runBursts cfg dones bus k st).2.2 = false →
      ∃ L2, L ≤ L2 ∧
        AggInv cfg (pl ++ payloads cfg (allPkts bus)) L2
          (runBursts cfg dones bus k st).1 ∧
        launchTables (runBursts cfg dones bus k st).2.1 =
          (List.range (L2 - L)).map
            (fun j => chunk (pl ++ payloads cfg (allPkts bus)) cfg.batch_size (L + j)) := by
  intro bus
  induction bus with
  | nil =>
    intro k st pl L _ hInv _
    refine ⟨L, Nat.le_refl L, ?_, by simp [runBursts, launchTables]⟩
    simpa [allPkts, payloads] using hInv
  | cons bu rest ih =>
    intro k st pl L hq hInv hsat
    simp only [runBursts] at hsat ⊢
    rw [Bool.or_eq_false_iff] at hsat
    obtain ⟨L1, hle1, hInv1, htab1⟩ := compute_agg cfg hB (dones k) bu st pl L
      (hq bu (List.mem_cons_self bu rest)) hInv hsat.1
    obtain ⟨L2, hle2, hInv2, htab2⟩ := ih (k + 1) _ _ _
      (fun b hb => hq b (List.mem_cons_of_mem bu hb)) hInv1 hsat.2
    have hfull : (pl ++ payloads cfg bu.pkt_ptrs) ++ payloads cfg (allPkts rest) =
        pl ++ payloads cfg (allPkts (bu :: rest)) := by
      show _ = pl ++ payloads cfg (bu.pkt_ptrs ++ allPkts rest)
      rw [payloads_append, List.append_assoc]
    rw [hfull] at hInv2 htab2
    refine ⟨L2, Nat.le_trans hle1 hle2, hInv2, ?_⟩
    have hmap1 : (List.range (L1 - L)).map
        (fun j => chunk (pl ++ payloads cfg bu.pkt_ptrs) cfg.batch_size (L + j)) =
        (List.range (L1 - L)).map
          (fun j => chunk (pl ++ payloads cfg (allPkts (bu :: rest)))
            cfg.batch_size (L + j)) := by
      apply List.map_congr_left
      intro j hj
      rw [List.mem_range] at hj
      rw [← hfull]
      refine (chunk_append _ _ _ _ ?_).symm
      have hlen1 := hInv1.2.1
      have hmul : (L + j + 1) * cfg.batch_size ≤ L1 * cfg.batch_size :=
        Nat.mul_le_mul_right _ (by omega)
      rw [Nat.succ_mul] at hmul
      omega
    rw [launchTables_append, htab1, htab2, hmap1]
    rw [show L2 - L = (L1 - L) + (L2 - L1) from by omega, List.range_add,
      List.map_append, List.map_map]
    congr 1
    apply List.map_congr_left
    intro j _
    simp only [Function.comp_apply]
    congr 1
    omega

end AdvRx

namespace AdvRx

/-! ### Claim C5 (amended) -/

/-- C5 amended: for every sequence of data-queue bursts, `batch_size ≥ 1`,
and a run in which the saturation check never fires, the kernel launches are
exactly the successive `batch_size`-chunks of the payload-pointer stream in
arrival order: the number of launched batches is `(P - 1) / batch_size`
(integer division; 0 when `P = 0`) where `P` is the total packet count — not
`⌈P/B⌉` as originally claimed, see `C5_counterexample` — and every launched
table holds exactly `batch_size` payload pointers in arrival order. -/
theorem C5_launch_count_and_tables (cfg : Cfg)
    (dones : Nat → Nat → BatchAggregationParams → Bool)
    (bus : List AdvNetBurstParams) (hB : 1 ≤ cfg.batch_size)
    (hq : ∀ bu ∈ bus, bu.q_id ≠ 0)
    (hsat : (runBursts cfg dones bus 0 initState).2.2 = false) :
    launchTables (runBursts cfg dones bus 0 initState).2.1 =
      (List.range (((payloads cfg (allPkts bus)).length - 1) / cfg.batch_size)).map
        (fun j => chunk (payloads cfg (allPkts bus)) cfg.batch_size j)
  ∧ (launchTables (runBursts cfg dones bus 0 initState).2.1).length =
      ((payloads cfg (allPkts bus)).length - 1) / cfg.batch_size
  ∧ ∀ t ∈ launchTables (runBursts cfg dones bus 0 initState).2.1,
      t.length = cfg.batch_size := by
  obtain ⟨L2, _, hInvF, htab⟩ := runBursts_agg cfg hB dones bus 0 initState [] 0
    hq (aggInv_initState cfg) hsat
  rw [List.nil_append] at hInvF htab
  simp only [Nat.sub_zero, Nat.zero_add] at htab
  have hL2 : L2 = ((payloads cfg (allPkts bus)).length - 1) / cfg.batch_size := by
    obtain ⟨h1, h2, h3, h4, _, _⟩ := hInvF
    by_cases hP0 : (payloads cfg (allPkts bus)).length = 0
    · rw [hP0, h3 hP0]
      simp
    · have ha1 := h4 hP0
      have hm : L2 * cfg.batch_size = cfg.batch_size * L2 := Nat.mul_comm _ _
      rw [show (payloads cfg (allPkts bus)).length - 1 =
          ((runBursts cfg dones bus 0 initState).1.aggr_pkts_recv - 1) +
            cfg.batch_size * L2 from by omega]
      rw [Nat.add_mul_div_left _ _ (by omega : 0 < cfg.batch_size),
        Nat.div_eq_of_lt (by omega), Nat.zero_add]
  rw [← hL2]
  refine ⟨htab, ?_, ?_⟩
  · rw [htab]
    simp
  · intro t ht
    rw [htab, List.mem_map] at ht
    obtain ⟨j, hj, hteq⟩ := ht
    rw [List.mem_range] at hj
    subst hteq
    have hub : (j + 1) * cfg.batch_size ≤ L2 * cfg.batch_size :=
      Nat.mul_le_mul_right _ (by omega)
    have hub2 : ((payloads cfg (allPkts bus)).length - 1) / cfg.batch_size *
        cfg.batch_size ≤ (payloads cfg (allPkts bus)).length - 1 :=
      Nat.div_mul_le_self _ _
    rw [← hL2] at hub2
    rw [Nat.succ_mul] at hub
    simp only [chunk, List.length_take, List.length_drop]
    omega

/-- Witness for C5: one five-packet data burst with `batch_size = 2` and all
polls succeeding: the launched tables are the chunks `[10,20]` and `[30,40]`
of the arrival stream, i.e. `(5-1)/2 = 2` launches. -/
theorem C5_launch_count_and_tables_witness :
    launchTables (runBursts cfg2 (fun _ => alwaysDone) [burst5] 0 initState).2.1 =
      (List.range (((payloads cfg2 (allPkts [burst5])).length - 1) /
          cfg2.batch_size)).map
        (fun j => chunk (payloads cfg2 (allPkts [burst5])) cfg2.batch_size j) :=
  (C5_launch_count_and_tables cfg2 (fun _ => alwaysDone) [burst5] (by decide)
    (by decide) (by decide)).1

end AdvRx

namespace AdvRx

/-! ### Claim C6 -/

/-- C6: a batch launch always happens on the first packet that would
overflow the full table, before that packet is stored.  General part: when
`aggr_pkts_recv_` equals `batch_size` and the reclaimed queue is not full,
processing one packet first reclaims, then launches the current slot's full
table, and only then writes that packet's payload pointer at index 0 of the
next (round-robin) slot — in exactly that trace order — leaving one pending
packet.  Concrete part (spec scenario): one five-packet data burst with
`batch_size = 2` yields exactly two launched batches of two payload pointers
each (`[10,20]` then `[30,40]`), one packet pending in slot state, and a
recorded packet total of 5. -/
theorem C6_launch_on_overflowing_packet (cfg : Cfg)
    (dones : Nat → BatchAggregationParams → Bool) (st : RxState) (p n : Nat)
    (hagg : st.aggr_pkts_recv = cfg.batch_size)
    (hlen : (free_batch_queue (dones n) st.batch_q).1.length ≠ num_concurrent) :
    ((processPkts cfg dones [p] n [] false false st).ops =
      (free_batch_queue (dones n) st.batch_q).2 ++
        [DevOp.launch st.cur_batch_idx
            (tableSnap st st.cur_batch_idx cfg.batch_size),
         DevOp.write ((st.cur_batch_idx + 1) % num_concurrent) 0
           (p + cfg.header_size)]
    ∧ (processPkts cfg dones [p] n [] false false st).st.aggr_pkts_recv = 1)
  ∧ (launchTables (compute cfg2 alwaysDone (some burst5) initState).ops =
      [[10, 20], [30, 40]]
    ∧ (compute cfg2 alwaysDone (some burst5) initState).st.aggr_pkts_recv = 1
    ∧ (compute cfg2 alwaysDone (some burst5) initState).st.ttl_pkts_recv = 5) := by
  constructor
  · simp only [processPkts]
    rw [if_pos (by rw [hagg]), if_neg hlen]
    exact ⟨rfl, rfl⟩
  · refine ⟨by decide, by decide, by decide⟩

/-- Witness for C6: the general boundary fact applied after a two-packet
burst with `batch_size = 2` has filled the table. -/
theorem C6_launch_on_overflowing_packet_witness :
    (processPkts cfg2 alwaysDone [99] 5 [] false false
        (compute cfg2 alwaysDone (some burst2) initState).st).ops =
      (free_batch_queue (alwaysDone 5)
          (compute cfg2 alwaysDone (some burst2) initState).st.batch_q).2 ++
        [DevOp.launch (compute cfg2 alwaysDone (some burst2) initState).st.cur_batch_idx
            (tableSnap (compute cfg2 alwaysDone (some burst2) initState).st
              (compute cfg2 alwaysDone (some burst2) initState).st.cur_batch_idx
              cfg2.batch_size),
         DevOp.write
           (((compute cfg2 alwaysDone (some burst2) initState).st.cur_batch_idx + 1) %
             num_concurrent) 0 (99 + cfg2.header_size)] :=
  ((C6_launch_on_overflowing_packet cfg2 alwaysDone
      (compute cfg2 alwaysDone (some burst2) initState).st 99 5
      (by decide) (by decide)).1).1

end AdvRx
